import Mathlib

/-!
Verification of the response-normalization and citation-insertion core of the
`opencode-websearch-gemini` plugin.

The development shallowly embeds the pure formatting logic of the repository:

* `src/src/google.ts` — the Gemini-style formatter returning a plain string
  (`formatWebSearchResponse`, `extractResponseText`, `extractGroundingMetadata`,
  `buildCitationInsertions`, `insertMarkersByUtf8Index`);
* `src/index.ts` (first plugin variant) — the same pipeline returning a
  structured `GeminiSearchResult` (`Plugin.formatWebSearchResponse`,
  `Plugin.buildErrorResult`, `Plugin.resolveGeminiApiKey`, and the pure
  pre-network phase of the `geminisearch` tool's `execute`);
* `src/src/openrouter.ts` — the OpenRouter response post-processing
  (`extractOutputText` and the pure tail of `runOpenRouterWebSearch`);
* `src/index.ts` (second plugin variant) — the pure pre-network phase of the
  `websearch_cited` tool's `execute`.

JavaScript strings are modelled as Lean `String`s; `TextEncoder.encode` is
modelled by `utf8Bytes` (bytes as `Nat`s), `TextDecoder.decode` (in its default
non-fatal mode, which substitutes U+FFFD for invalid subsequences following the
WHATWG maximal-subpart rule) by `utf8Decode`, `String.prototype.trim` by
`jsTrim`, and the stable `Array.prototype.sort` by `List.insertionSort` with
the corresponding total preorder.
-/

/-- Whitespace as removed by `String.prototype.trim` (ECMAScript WhiteSpace and
LineTerminator code points, restricted to the ones of practical relevance). -/
def jsWhitespace (c : Char) : Bool :=
  c = ' ' || c = '\t' || c = '\n' || c = '\r' ||
  c.toNat = 11 || c.toNat = 12 || c.toNat = 160 ||
  c.toNat = 0x2028 || c.toNat = 0x2029 || c.toNat = 0xFEFF

/-- Model of `String.prototype.trim`: drop leading and trailing whitespace. -/
def jsTrim (s : String) : String :=
  String.mk (((s.data.dropWhile jsWhitespace).reverse.dropWhile jsWhitespace).reverse)

/-- UTF-8 encoding of a single Unicode scalar value (its code point given as a
`Nat`), as a list of bytes.  Mirrors what `TextEncoder.encode` produces for one
character of a well-formed JavaScript string. -/
def utf8EncodeChar (c : Nat) : List Nat :=
  if c < 0x80 then [c]
  else if c < 0x800 then [0xC0 + c / 0x40, 0x80 + c % 0x40]
  else if c < 0x10000 then
    [0xE0 + c / 0x1000, 0x80 + (c / 0x40) % 0x40, 0x80 + c % 0x40]
  else
    [0xF0 + c / 0x40000, 0x80 + (c / 0x1000) % 0x40, 0x80 + (c / 0x40) % 0x40,
      0x80 + c % 0x40]

/-- Model of `new TextEncoder().encode(s)`: the UTF-8 bytes of a string. -/
def utf8Bytes (s : String) : List Nat :=
  (s.data.map (fun c => utf8EncodeChar c.toNat)).flatten

/-- The Unicode replacement character U+FFFD emitted by `TextDecoder` for
invalid input subsequences. -/
def replacementChar : Char := '�'

/-- Is `b` a UTF-8 continuation byte (`0x80..0xBF`)? -/
def isUtf8Cont (b : Nat) : Bool := 0x80 ≤ b && b ≤ 0xBF

/-- Valid range for the second byte of a multi-byte UTF-8 sequence with lead
byte `b` (WHATWG `UTF-8 decode` lower/upper boundaries, which exclude overlong
encodings and surrogate code points). -/
def utf8SecondByteOk (b b2 : Nat) : Bool :=
  if b = 0xE0 then 0xA0 ≤ b2 && b2 ≤ 0xBF
  else if b = 0xED then 0x80 ≤ b2 && b2 ≤ 0x9F
  else if b = 0xF0 then 0x90 ≤ b2 && b2 ≤ 0xBF
  else if b = 0xF4 then 0x80 ≤ b2 && b2 ≤ 0x8F
  else isUtf8Cont b2

/-- Fuel-indexed WHATWG UTF-8 decoder: invalid bytes and truncated sequences
decode to U+FFFD per maximal subpart, and the offending byte is reprocessed.
The fuel only needs to dominate the list length. -/
def utf8DecodeChars : Nat → List Nat → List Char
  | 0, _ => []
  | _ + 1, [] => []
  | fuel + 1, b :: bs =>
    if b < 0x80 then Char.ofNat b :: utf8DecodeChars fuel bs
    else if b < 0xC2 then replacementChar :: utf8DecodeChars fuel bs
    else if b < 0xE0 then
      match bs with
      | [] => [replacementChar]
      | b2 :: bs2 =>
        if isUtf8Cont b2 then
          Char.ofNat ((b - 0xC0) * 0x40 + (b2 - 0x80)) :: utf8DecodeChars fuel bs2
        else replacementChar :: utf8DecodeChars fuel bs
    else if b < 0xF0 then
      match bs with
      | [] => [replacementChar]
      | b2 :: bs2 =>
        if utf8SecondByteOk b b2 then
          match bs2 with
          | [] => [replacementChar]
          | b3 :: bs3 =>
            if isUtf8Cont b3 then
              Char.ofNat ((b - 0xE0) * 0x1000 + (b2 - 0x80) * 0x40 + (b3 - 0x80)) ::
                utf8DecodeChars fuel bs3
            else replacementChar :: utf8DecodeChars fuel bs2
        else replacementChar :: utf8DecodeChars fuel bs
    else if b < 0xF5 then
      match bs with
      | [] => [replacementChar]
      | b2 :: bs2 =>
        if utf8SecondByteOk b b2 then
          match bs2 with
          | [] => [replacementChar]
          | b3 :: bs3 =>
            if isUtf8Cont b3 then
              match bs3 with
              | [] => [replacementChar]
              | b4 :: bs4 =>
                if isUtf8Cont b4 then
                  Char.ofNat ((b - 0xF0) * 0x40000 + (b2 - 0x80) * 0x1000 +
                      (b3 - 0x80) * 0x40 + (b4 - 0x80)) :: utf8DecodeChars fuel bs4
                else replacementChar :: utf8DecodeChars fuel bs3
            else replacementChar :: utf8DecodeChars fuel bs2
        else replacementChar :: utf8DecodeChars fuel bs
    else replacementChar :: utf8DecodeChars fuel bs

/-- Model of `new TextDecoder().decode(bytes)` (default non-fatal mode). -/
def utf8Decode (bytes : List Nat) : String :=
  String.mk (utf8DecodeChars bytes.length bytes)

/-! ## Data model of `src/src/google.ts` (identical in `src/index.ts`)

Optional/nullable fields of the raw provider response become `Option`s; the
`thought?: unknown` field is used only for its truthiness, so it is a `Bool`. -/

structure GeminiChunkWeb where
  title : Option String
  uri : Option String
deriving DecidableEq

structure GeminiChunk where
  web : Option GeminiChunkWeb
deriving DecidableEq

structure GeminiSupportSegment where
  startIndex : Option Nat
  endIndex : Option Nat
deriving DecidableEq

structure GeminiSupport where
  segment : Option GeminiSupportSegment
  groundingChunkIndices : Option (List Nat)
deriving DecidableEq

structure GeminiMetadata where
  groundingChunks : Option (List GeminiChunk)
  groundingSupports : Option (List GeminiSupport)
deriving DecidableEq

structure GeminiTextPart where
  text : Option String
  thought : Bool
deriving DecidableEq

structure GeminiContent where
  role : Option String
  parts : Option (List GeminiTextPart)
deriving DecidableEq

structure GeminiCandidate where
  content : Option GeminiContent
  groundingMetadata : Option GeminiMetadata
deriving DecidableEq

structure GeminiGenerateContentResponse where
  candidates : Option (List GeminiCandidate)
deriving DecidableEq

structure CitationInsertion where
  index : Nat
  marker : String
deriving DecidableEq

/-! ## Functions of `src/src/google.ts` -/

/-- `extractResponseText` (google.ts lines 159-178, identically index.ts lines
205-222): concatenate the non-"thought" text parts of the first candidate;
empty concatenation collapses to `undefined` (`combined || undefined`). -/
def extractResponseText (response : GeminiGenerateContentResponse) : Option String :=
  match (((response.candidates.bind List.head?).bind GeminiCandidate.content).bind
      GeminiContent.parts) with
  | none => none
  | some parts =>
    if parts.isEmpty then none
    else
      let combined := parts.foldl
        (fun acc part =>
          if part.thought then acc
          else match part.text with
            | some s => acc ++ s
            | none => acc) ""
      if combined = "" then none else some combined

/-- `extractGroundingMetadata` (google.ts lines 180-184): the first candidate's
`groundingMetadata`, if any. -/
def extractGroundingMetadata (response : GeminiGenerateContentResponse) :
    Option GeminiMetadata :=
  (response.candidates.bind List.head?).bind GeminiCandidate.groundingMetadata

/-- The loop body of `buildCitationInsertions` (google.ts lines 194-208) for a
single support: skip when `segment`/`endIndex`/indices are missing or the index
list is empty; otherwise build the marker from the unique chunk indices sorted
ascending (`Array.from(new Set(indices)).sort((a, b) => a - b)`). -/
def supportInsertion (support : GeminiSupport) : Option CitationInsertion :=
  match support.segment with
  | none => none
  | some segment =>
    match segment.endIndex with
    | none => none
    | some endIndex =>
      match support.groundingChunkIndices with
      | none => none
      | some indices =>
        if indices.isEmpty then none
        else
          let uniqueSorted := List.insertionSort (fun a b => a ≤ b) indices.dedup
          some { index := endIndex,
                 marker := String.join (uniqueSorted.map
                   (fun idx => "[" ++ toString (idx + 1) ++ "]")) }

/-- `buildCitationInsertions` (google.ts lines 186-212, identically index.ts
lines 233-261): one insertion per usable support, then a stable sort by
descending `index` (`insertions.sort((a, b) => b.index - a.index)`). -/
def buildCitationInsertions (metadata : Option GeminiMetadata) :
    List CitationInsertion :=
  match metadata.bind GeminiMetadata.groundingSupports with
  | none => []
  | some supports =>
    if supports.isEmpty then []
    else
      List.insertionSort (fun a b => b.index ≤ a.index)
        (supports.filterMap supportInsertion)

/-- The byte-assembly loop of `insertMarkersByUtf8Index` (google.ts lines
227-234): walking the insertion list, each position is clamped by the position
reached so far (`Math.min(insertion.index, lastIndex)`), the byte slice
`subarray(position, lastIndex)` and the encoded marker are prepended, and the
head slice `subarray(0, lastIndex)` finishes the buffer. -/
def spliceLoop (bytes : List Nat) : List CitationInsertion → Nat → List Nat
  | [], lastIndex => bytes.take lastIndex
  | insertion :: rest, lastIndex =>
    let position := Nat.min insertion.index lastIndex
    spliceLoop bytes rest position ++ utf8Bytes insertion.marker ++
      ((bytes.take lastIndex).drop position)

/-- The assembled byte buffer (`finalBytes`) of `insertMarkersByUtf8Index`
before decoding. -/
def spliceBytes (bytes : List Nat) (insertions : List CitationInsertion) :
    List Nat :=
  spliceLoop bytes insertions bytes.length

/-- `insertMarkersByUtf8Index` (google.ts lines 214-245, identically index.ts
lines 263-294): encode the text as UTF-8, splice the markers at byte offsets,
and decode the assembled buffer. -/
def insertMarkersByUtf8Index (text : String) (insertions : List CitationInsertion) :
    String :=
  if insertions.isEmpty then text
  else utf8Decode (spliceBytes (utf8Bytes text) insertions)

/-- The `||` fallback applied to the optional `title`/`uri` strings (a falsy —
absent or empty — string selects the default). -/
def jsStringOr (value : Option String) (default : String) : String :=
  match value with
  | some s => if s = "" then default else s
  | none => default

/-- One line of the sources block (google.ts lines 148-152):
`[n] <title-or-Untitled> (<uri-or-No URI>)`, 1-indexed. -/
def sourceLine (position : Nat) (source : GeminiChunk) : String :=
  "[" ++ toString (position + 1) ++ "] " ++
    jsStringOr (source.web.bind GeminiChunkWeb.title) "Untitled" ++ " (" ++
    jsStringOr (source.web.bind GeminiChunkWeb.uri) "No URI" ++ ")"

/-- `formatWebSearchResponse` (google.ts lines 124-157): fallback on missing or
all-whitespace text; otherwise splice citation markers when both sources and
insertions exist, and append the `Sources:` block when sources exist. -/
def formatWebSearchResponse (response : GeminiGenerateContentResponse)
    (query : String) : String :=
  let fallback := "No search results or information found for query: \"" ++ query ++ "\""
  match extractResponseText response with
  | none => fallback
  | some responseText =>
    if jsTrim responseText = "" then fallback
    else
      let metadata := extractGroundingMetadata response
      let sources := metadata.bind GeminiMetadata.groundingChunks
      let hasSources : Bool :=
        match sources with
        | some chunks => !chunks.isEmpty
        | none => false
      let afterInsert :=
        if hasSources then
          let insertions := buildCitationInsertions metadata
          if insertions.isEmpty then responseText
          else insertMarkersByUtf8Index responseText insertions
        else responseText
      if hasSources then
        afterInsert ++ "\n\nSources:\n" ++
          String.intercalate "\n"
            ((sources.getD []).enum.map (fun p => sourceLine p.1 p.2))
      else afterInsert

/-! ## Data model and functions of `src/index.ts` (geminisearch plugin variant)

The `GroundingChunkItem`/`GroundingMetadataLike` types of `src/index.ts` are
structurally identical to the `GeminiChunk`/`GeminiMetadata` types above, and
`extractResponseText`, `extractGroundingMetadata`, `buildCitationInsertions`
and `insertMarkersByUtf8Index` are verbatim copies of the google.ts versions,
so the embeddings above are shared. -/

namespace Plugin

structure WebSearchError where
  message : String
  type : Option String
deriving DecidableEq

/-- `GeminiSearchResult` (index.ts lines 10-18). -/
structure GeminiSearchResult where
  llmContent : String
  returnDisplay : String
  sources : Option (List GeminiChunk)
  error : Option WebSearchError
deriving DecidableEq

/-- `buildErrorResult` (index.ts lines 313-329). -/
def buildErrorResult (message code : String) (details : Option String) :
    GeminiSearchResult :=
  { llmContent :=
      match details with
      | some d => "Error: " ++ message ++ "\n\nDetails: " ++ d
      | none => "Error: " ++ message,
    returnDisplay := message,
    sources := none,
    error := some { message := details.getD message, type := some code } }

/-- `formatWebSearchResponse` (index.ts lines 155-203): same citation pipeline
as google.ts, but wrapped in a `GeminiSearchResult` with a prefixed
`llmContent` and the sources attached when present. -/
def formatWebSearchResponse (response : GeminiGenerateContentResponse)
    (query : String) : GeminiSearchResult :=
  match extractResponseText response with
  | none =>
    { llmContent := "No search results or information found for query: \"" ++ query ++ "\"",
      returnDisplay := "No information found.", sources := none, error := none }
  | some responseText =>
    if jsTrim responseText = "" then
      { llmContent := "No search results or information found for query: \"" ++ query ++ "\"",
        returnDisplay := "No information found.", sources := none, error := none }
    else
      let metadata := extractGroundingMetadata response
      let sources := metadata.bind GeminiMetadata.groundingChunks
      let hasSources : Bool :=
        match sources with
        | some chunks => !chunks.isEmpty
        | none => false
      let afterInsert :=
        if hasSources then
          let insertions := buildCitationInsertions metadata
          if insertions.isEmpty then responseText
          else insertMarkersByUtf8Index responseText insertions
        else responseText
      let modifiedText :=
        if hasSources then
          afterInsert ++ "\n\nSources:\n" ++
            String.intercalate "\n"
              ((sources.getD []).enum.map (fun p => sourceLine p.1 p.2))
        else afterInsert
      { llmContent := "Web search results for \"" ++ query ++ "\":\n\n" ++ modifiedText,
        returnDisplay := "Search results for \"" ++ query ++ "\" returned.",
        sources := if hasSources then sources else none,
        error := none }

/-- `resolveGeminiApiKey` (index.ts lines 296-303): the stored auth key
(trimmed, when non-empty) takes precedence over the `GEMINI_API_KEY`
environment variable (trimmed, when non-empty). -/
def resolveGeminiApiKey (storedKey envKey : Option String) : Option String :=
  let fromEnv :=
    match envKey.map jsTrim with
    | some e => if e = "" then none else some e
    | none => none
  match storedKey.map jsTrim with
  | some s => if s = "" then fromEnv else some s
  | none => fromEnv

/-- Outcome of the pure pre-network phase of `geminisearch.execute` (index.ts
lines 86-128): either an immediately returned result, or the Gemini request
the code goes on to perform (model and validated query). -/
inductive GeminisearchStep where
  | reply (result : GeminiSearchResult)
  | callGemini (model query : String)
deriving DecidableEq

/-- The pure pre-network phase of `geminisearch.execute` (index.ts lines
86-114): validate the query, resolve the API key, and only then construct the
network request with `DEFAULT_GEMINI_MODEL`. -/
def geminisearchExecute (query storedKey envKey : Option String) :
    GeminisearchStep :=
  match query.map jsTrim with
  | none =>
    .reply (buildErrorResult "The 'query' parameter cannot be empty." "INVALID_QUERY" none)
  | some q =>
    if q = "" then
      .reply (buildErrorResult "The 'query' parameter cannot be empty." "INVALID_QUERY" none)
    else
      match resolveGeminiApiKey storedKey envKey with
      | none =>
        .reply (buildErrorResult
          "Gemini web search is not configured. Please log in to the Google provider via `opencode auth login` or set GEMINI_API_KEY."
          "MISSING_GEMINI_API_KEY" none)
      | some _ => .callGemini "gemini-2.5-flash" q

end Plugin

/-! ## Data model and functions of the OpenRouter client
(second document of `src/src/openai.ts`, `src/src/openrouter.ts`) -/

/-- One entry of the `annotations` array (`OpenRouterUrlCitationAnnotation` in
the source, renamed): a `url_citation` record. -/
structure OpenRouterUrlCitationItem where
  type : Option String
  url : Option String
  title : Option String
  start_index : Option Nat
  end_index : Option Nat
deriving DecidableEq

structure OpenRouterTextContent where
  type : Option String
  text : Option String
  annotations : Option (List OpenRouterUrlCitationItem)
deriving DecidableEq

structure OpenRouterMessage where
  type : Option String
  role : Option String
  content : Option (List OpenRouterTextContent)
deriving DecidableEq

structure OpenRouterResponsesBody where
  output_text : Option String
  output : Option (List OpenRouterMessage)
deriving DecidableEq

/-- The `output`-array walk of `extractOutputText` (openrouter.ts lines
480-509): concatenate the `output_text` parts of every `message` item;
empty concatenation collapses to `undefined`. -/
def extractFromOutput (output : Option (List OpenRouterMessage)) : Option String :=
  match output with
  | none => none
  | some items =>
    if items.isEmpty then none
    else
      let combined := items.foldl
        (fun acc item =>
          if item.type = some "message" then
            match item.content with
            | some content =>
              content.foldl
                (fun acc2 part =>
                  if part.type = some "output_text" then
                    match part.text with
                    | some t => acc2 ++ t
                    | none => acc2
                  else acc2) acc
            | none => acc
          else acc) ""
      if combined = "" then none else some combined

/-- `extractOutputText` (openrouter.ts lines 468-510): prefer a non-blank
top-level `output_text`, falling back to the `output` array walk.  The
`annotations` of the content parts are never read. -/
def extractOutputText (payload : OpenRouterResponsesBody) : Option String :=
  match payload.output_text with
  | some direct => if jsTrim direct = "" then extractFromOutput payload.output else some direct
  | none => extractFromOutput payload.output

/-- The pure post-response tail of `runOpenRouterWebSearch` (openrouter.ts
lines 561-568): extract the output text and fall back to a fixed message when
it is missing or blank. -/
def openRouterFormatPayload (payload : OpenRouterResponsesBody)
    (normalizedQuery : String) : String :=
  let fallback :=
    "Web search completed for \"" ++ normalizedQuery ++ "\", but no results were returned."
  match extractOutputText payload with
  | none => fallback
  | some outputText => if jsTrim outputText = "" then fallback else outputText

/-- Erase the `annotations` field of one content part. -/
def stripContentPart (c : OpenRouterTextContent) : OpenRouterTextContent :=
  { c with annotations := none }

/-- Erase every `annotations` field of one message. -/
def stripMessage (m : OpenRouterMessage) : OpenRouterMessage :=
  { m with content := m.content.map (List.map stripContentPart) }

/-- Erase every `annotations` field of a payload, leaving all other fields
untouched. -/
def stripAnnotations (payload : OpenRouterResponsesBody) : OpenRouterResponsesBody :=
  { payload with output := payload.output.map (List.map stripMessage) }

/-! ## The `websearch_cited` tool entry point
(second plugin variant of `src/index.ts`) -/

/-- Outcome of the pure pre-network phase of `websearch_cited.execute`
(index.ts second variant, lines 539-588): either a thrown error message, or a
dispatch to the selected provider's client with the validated query. -/
inductive WebsearchCitedStep where
  | thrown (message : String)
  | dispatch (providerID model query : String)
deriving DecidableEq

/-- The pure pre-network phase of `websearch_cited.execute`: reject unknown
argument keys, reject an empty query, then surface configuration errors before
dispatching to the selected provider.  `selected` carries the
provider/model pair resolved by the config hook. -/
def websearchCitedExecute (argKeys : List String) (query : Option String)
    (configError : Option String) (selected : Option (String × String)) :
    WebsearchCitedStep :=
  let extraKeys := argKeys.filter (fun key => !(key = "query"))
  if !extraKeys.isEmpty then
    .thrown ("Unknown argument(s): " ++ String.intercalate ", " extraKeys ++
      ", only 'query' supported.")
  else
    match query.map jsTrim with
    | none => .thrown "The 'query' parameter cannot be empty."
    | some q =>
      if q = "" then .thrown "The 'query' parameter cannot be empty."
      else
        match configError with
        | some e => .thrown e
        | none =>
          match selected with
          | none => .thrown "Missing web search model configuration."
          | some (providerID, model) => .dispatch providerID model q

/-! ## The OpenRouter citation policy described by the specification

The source's OpenRouter path performs no citation work, so to compare it with
the claimed behavior the policy is implemented here verbatim from the spec's
words (§4.2, OpenRouter-style): deduplicate sources by URL, place each marker
at the annotation's `end_index` in character offsets, and number citations in
order of first appearance among deduplicated URLs. -/

/-- All `url_citation` annotations of a payload, in order of appearance. -/
def collectUrlCitations (payload : OpenRouterResponsesBody) :
    List OpenRouterUrlCitationItem :=
  ((payload.output.getD []).map (fun m =>
      ((m.content.getD []).map (fun c =>
          (c.annotations.getD []).filter (fun a => a.type = some "url_citation"))).flatten)).flatten

/-- First-appearance deduplication (accumulator-based). -/
def dedupFirstAux : List String → List String → List String
  | [], acc => acc.reverse
  | url :: rest, acc =>
    if url ∈ acc then dedupFirstAux rest acc else dedupFirstAux rest (url :: acc)

/-- Deduplicate a URL list keeping the first appearance of each URL. -/
def dedupFirst (urls : List String) : List String := dedupFirstAux urls []

/-- Character-offset splicer, the character-indexed variant of the byte
splicer that the spec prescribes for character-offset providers. -/
def charSpliceLoop (chars : List Char) : List (Nat × String) → Nat → List Char
  | [], lastIndex => chars.take lastIndex
  | (idx, marker) :: rest, lastIndex =>
    let position := Nat.min idx lastIndex
    charSpliceLoop chars rest position ++ marker.data ++
      ((chars.take lastIndex).drop position)

/-- Follows the spec's words for the OpenRouter-style annotation-based policy:
the answer text with `[n]` markers spliced at each annotation's `end_index`
(character offsets, descending stable order), where `n` numbers the
deduplicated URLs by first appearance, followed by a `Sources:` block with one
line per deduplicated URL. -/
def specOpenRouterCitedResult (payload : OpenRouterResponsesBody)
    (query : String) : String :=
  match extractOutputText payload with
  | none =>
    "Web search completed for \"" ++ query ++ "\", but no results were returned."
  | some text =>
    let citations := collectUrlCitations payload
    let urls := dedupFirst (citations.filterMap OpenRouterUrlCitationItem.url)
    let insertions := citations.filterMap (fun a =>
      match a.url, a.end_index with
      | some u, some e => some (e, "[" ++ toString (urls.indexOf u + 1) ++ "]")
      | _, _ => none)
    let sorted := List.insertionSort (fun a b => b.1 ≤ a.1) insertions
    let body := String.mk (charSpliceLoop text.data sorted text.data.length)
    if urls.isEmpty then body
    else
      body ++ "\n\nSources:\n" ++
        String.intercalate "\n"
          (urls.enum.map (fun p => "[" ++ toString (p.1 + 1) ++ "] " ++ p.2))

/-! ## Specification helpers for the splicer theorems -/

/-- Interleaving of text fragments with separator fragments:
`f0 ++ m1 ++ f1 ++ m2 ++ f2 ++ ...`. -/
def interleaveJoin : List (List Nat) → List (List Nat) → List Nat
  | [], _ => []
  | f :: fs, [] => f ++ interleaveJoin fs []
  | f :: fs, m :: ms => f ++ m ++ interleaveJoin fs ms

/-- The clamped positions actually used by `spliceLoop`: each insertion index
is clamped by the (monotonically non-increasing) position reached so far. -/
def clampIndices : Nat → List CitationInsertion → List CitationInsertion
  | _, [] => []
  | lastIndex, insertion :: rest =>
    let position := Nat.min insertion.index lastIndex
    { index := position, marker := insertion.marker } :: clampIndices position rest

theorem interleaveJoin_nil (fs : List (List Nat)) :
    interleaveJoin fs [] = fs.flatten := by
  induction fs with
  | nil => rfl
  | cons f fs ih => simp [interleaveJoin, ih]

theorem interleaveJoin_append (fs ms : List (List Nat)) (f m : List Nat)
    (h : fs.length = ms.length + 1) :
    interleaveJoin (fs ++ [f]) (ms ++ [m]) = interleaveJoin fs ms ++ m ++ f := by
  induction fs generalizing ms with
  | nil => simp at h
  | cons a fs ih =>
    cases ms with
    | nil =>
      have hfs : fs = [] := List.length_eq_zero.mp (by simpa using h)
      subst hfs
      simp [interleaveJoin]
    | cons b ms =>
      have h' : fs.length = ms.length + 1 := by simpa using h
      simp only [List.cons_append, interleaveJoin, List.append_eq]
      rw [ih ms h']
      simp [List.append_assoc]

theorem interleaveJoin_length (fs ms : List (List Nat)) (h : fs.length = ms.length + 1) :
    (interleaveJoin fs ms).length = fs.flatten.length + (ms.map List.length).sum := by
  induction fs generalizing ms with
  | nil => simp at h
  | cons a fs ih =>
    cases ms with
    | nil =>
      have hfs : fs = [] := List.length_eq_zero.mp (by simpa using h)
      subst hfs
      simp [interleaveJoin]
    | cons b ms =>
      have h' : fs.length = ms.length + 1 := by simpa using h
      simp only [interleaveJoin, List.length_append, ih ms h', List.flatten_cons,
        List.map_cons, List.sum_cons]
      omega

/-- Structure theorem for the splice loop: the byte buffer it assembles is the
first `lastIndex` bytes of the input partitioned into contiguous fragments,
with the encoded markers (in reverse insertion-list order) between them. -/
theorem spliceLoop_decomp (bytes : List Nat) (ins : List CitationInsertion) :
    ∀ lastIndex, ∃ frags : List (List Nat),
      frags.length = ins.length + 1 ∧
      frags.flatten = bytes.take lastIndex ∧
      spliceLoop bytes ins lastIndex =
        interleaveJoin frags ((ins.map (fun i => utf8Bytes i.marker)).reverse) := by
  induction ins with
  | nil =>
    intro lastIndex
    exact ⟨[bytes.take lastIndex], by simp, by simp,
      by simp [spliceLoop, interleaveJoin]⟩
  | cons i rest ih =>
    intro lastIndex
    obtain ⟨fr, hlen, hflat, heq⟩ := ih (Nat.min i.index lastIndex)
    have hmin : Nat.min i.index lastIndex ≤ lastIndex := Nat.min_le_right _ _
    refine ⟨fr ++ [(bytes.take lastIndex).drop (Nat.min i.index lastIndex)],
      by simp [hlen], ?_, ?_⟩
    · have htake : (bytes.take lastIndex).take (Nat.min i.index lastIndex) =
          bytes.take (Nat.min i.index lastIndex) := by
        rw [List.take_take, Nat.min_eq_left hmin]
      calc (fr ++ [(bytes.take lastIndex).drop (Nat.min i.index lastIndex)]).flatten
          = fr.flatten ++ (bytes.take lastIndex).drop (Nat.min i.index lastIndex) := by
            simp
        _ = (bytes.take lastIndex).take (Nat.min i.index lastIndex) ++
              (bytes.take lastIndex).drop (Nat.min i.index lastIndex) := by
            rw [hflat, htake]
        _ = bytes.take lastIndex := List.take_append_drop _ _
    · have hstep : spliceLoop bytes (i :: rest) lastIndex =
          spliceLoop bytes rest (Nat.min i.index lastIndex) ++ utf8Bytes i.marker ++
            ((bytes.take lastIndex).drop (Nat.min i.index lastIndex)) := rfl
      rw [hstep, heq, List.map_cons, List.reverse_cons,
        interleaveJoin_append _ _ _ _ (by simpa using hlen)]

/-- Replacing the insertion indices by their clamped values does not change
the assembled buffer. -/
theorem spliceLoop_clampIndices (bytes : List Nat) (ins : List CitationInsertion) :
    ∀ lastIndex, spliceLoop bytes (clampIndices lastIndex ins) lastIndex =
      spliceLoop bytes ins lastIndex := by
  induction ins with
  | nil => intro lastIndex; rfl
  | cons i rest ih =>
    intro lastIndex
    have hmin : Nat.min (Nat.min i.index lastIndex) lastIndex = Nat.min i.index lastIndex :=
      Nat.min_eq_left (Nat.min_le_right _ _)
    show spliceLoop bytes (clampIndices (Nat.min i.index lastIndex) rest)
        (Nat.min (Nat.min i.index lastIndex) lastIndex) ++ _ ++
        ((bytes.take lastIndex).drop (Nat.min (Nat.min i.index lastIndex) lastIndex)) = _
    rw [hmin, ih (Nat.min i.index lastIndex)]
    rfl

theorem clampIndices_le (ins : List CitationInsertion) :
    ∀ lastIndex, ∀ c ∈ clampIndices lastIndex ins, c.index ≤ lastIndex := by
  induction ins with
  | nil => intro lastIndex c hc; simp [clampIndices] at hc
  | cons i rest ih =>
    intro lastIndex c hc
    simp only [clampIndices, List.mem_cons] at hc
    rcases hc with hc | hc
    · subst hc; exact Nat.min_le_right _ _
    · exact le_trans (ih (Nat.min i.index lastIndex) c hc) (Nat.min_le_right _ _)

theorem clampIndices_chain (ins : List CitationInsertion) :
    ∀ lastIndex, List.Chain' (fun a b => b.index ≤ a.index)
      (clampIndices lastIndex ins) := by
  induction ins with
  | nil => intro lastIndex; simp [clampIndices]
  | cons i rest ih =>
    intro lastIndex
    rw [clampIndices]
    apply List.chain'_cons'.mpr
    refine ⟨?_, ih (Nat.min i.index lastIndex)⟩
    intro b hb
    have hmem : b ∈ clampIndices (Nat.min i.index lastIndex) rest :=
      List.mem_of_mem_head? hb
    exact clampIndices_le rest _ b hmem


/-- The `output`-array text walk never reads the `annotations` field. -/
theorem extractFromOutput_stripAnnotations (output : Option (List OpenRouterMessage)) :
    extractFromOutput (output.map (List.map stripMessage)) =
      extractFromOutput output := by
  cases output with
  | none => rfl
  | some items =>
    have hempty : (items.map stripMessage).isEmpty = items.isEmpty := by
      cases items <;> rfl
    simp only [extractFromOutput, Option.map_some']
    rw [hempty, List.foldl_map]
    rw [List.foldl_ext _ _ "" ?_]
    intro acc m _
    show (if (stripMessage m).type = some "message" then
        match (stripMessage m).content with
        | some content =>
          content.foldl
            (fun acc2 part =>
              if part.type = some "output_text" then
                match part.text with
                | some t => acc2 ++ t
                | none => acc2
              else acc2) acc
        | none => acc
      else acc) = _
    have htype : (stripMessage m).type = m.type := rfl
    have hcont : (stripMessage m).content = m.content.map (List.map stripContentPart) := rfl
    rw [htype, hcont]
    refine if_congr Iff.rfl ?_ rfl
    cases hcontent : m.content with
    | none => rfl
    | some content =>
      show (content.map stripContentPart).foldl
          (fun acc2 part =>
            if part.type = some "output_text" then
              match part.text with
              | some t => acc2 ++ t
              | none => acc2
            else acc2) acc =
        content.foldl
          (fun acc2 part =>
            if part.type = some "output_text" then
              match part.text with
              | some t => acc2 ++ t
              | none => acc2
            else acc2) acc
      rw [List.foldl_map]
      rfl

/-! ## Concrete response fixtures -/

/-- The grounded response of the end-to-end scenario: one candidate with text
`"This is a test response."`, two chunks and two supports. -/
def geminiResponseBasic : GeminiGenerateContentResponse :=
  { candidates := some [
      { content := some { role := some "model",
                          parts := some [{ text := some "This is a test response.",
                                           thought := false }] },
        groundingMetadata := some {
          groundingChunks := some [
            { web := some { title := some "Example Site",
                            uri := some "https://example.com" } },
            { web := some { title := some "Google",
                            uri := some "https://google.com" } } ],
          groundingSupports := some [
            { segment := some { startIndex := some 5, endIndex := some 14 },
              groundingChunkIndices := some [0] },
            { segment := some { startIndex := some 15, endIndex := some 24 },
              groundingChunkIndices := some [0, 1] } ] } } ] }

/-- The multibyte response: supports at byte offsets 16 and 33 into
`"こんにちは! Gemini CLI✨️"`, referencing chunk 0 and then chunks 1 and 2. -/
def geminiResponseMultibyte : GeminiGenerateContentResponse :=
  { candidates := some [
      { content := some { role := some "model",
                          parts := some [{ text := some "こんにちは! Gemini CLI✨️",
                                           thought := false }] },
        groundingMetadata := some {
          groundingChunks := some [
            { web := some { title := some "Japanese Greeting",
                            uri := some "https://example.test/japanese-greeting" } },
            { web := some { title := some "google-gemini/gemini-cli",
                            uri := some "https://github.com/google-gemini/gemini-cli" } },
            { web := some { title := some "Gemini CLI: your open-source AI agent",
                            uri := some "https://blog.google/technology/developers/introducing-gemini-cli-open-source-ai-agent/" } } ],
          groundingSupports := some [
            { segment := some { startIndex := some 0, endIndex := some 16 },
              groundingChunkIndices := some [0] },
            { segment := some { startIndex := some 17, endIndex := some 33 },
              groundingChunkIndices := some [1, 2] } ] } } ] }

/-- An OpenRouter payload whose single message carries two `url_citation`
annotations for the same URL at character offsets 8 and 31. -/
def openRouterPayloadDupUrl : OpenRouterResponsesBody :=
  { output_text := none,
    output := some [
      { type := some "message", role := some "assistant",
        content := some [
          { type := some "output_text",
            text := some "OpenCode is an AI coding agent.",
            annotations := some [
              { type := some "url_citation", url := some "https://a.example",
                title := some "A", start_index := some 0, end_index := some 8 },
              { type := some "url_citation", url := some "https://a.example",
                title := some "A", start_index := some 9, end_index := some 31 } ] } ] } ] }

/-! ## Claims -/

/-- Claim C1: for the Gemini-style response with candidate text
`"This is a test response."`, the two documented grounding chunks and the two
supports yielding insertions at byte offsets 14 and 24, the formatter's core
body output is exactly the documented marked-up text followed by the two-line
sources block. -/
theorem claim_C1 : formatWebSearchResponse geminiResponseBasic "grounding query" =
    "This is a test[1] response.[1][2]\n\nSources:\n[1] Example Site (https://example.com)\n[2] Google (https://google.com)" := by
  decide

set_option maxRecDepth 8192 in
/-- Claim C2: splicer indices are UTF-8 byte offsets: for the text
`"こんにちは! Gemini CLI✨️"` with supports at byte offsets 16 and 33 referencing
chunk 0 and then chunks 1 and 2, the formatted output places the markers after
`"こんにちは!"` and after the trailing variation selector, followed by the
three-line sources block. -/
theorem claim_C2 : formatWebSearchResponse geminiResponseMultibyte "multibyte query" =
    "こんにちは![1] Gemini CLI✨️[2][3]\n\nSources:\n[1] Japanese Greeting (https://example.test/japanese-greeting)\n[2] google-gemini/gemini-cli (https://github.com/google-gemini/gemini-cli)\n[3] Gemini CLI: your open-source AI agent (https://blog.google/technology/developers/introducing-gemini-cli-open-source-ai-agent/)" := by
  decide

/-- Claim C3 counterexample: on a payload whose message carries two
`url_citation` annotations for the same URL, the OpenRouter path returns the
extracted text verbatim, while the spec's annotation-based policy (markers at
`end_index` character offsets, URL-deduplicated numbering) would produce a
marked-up body with a sources list; the two disagree. -/
theorem claim_C3_counterexample :
    openRouterFormatPayload openRouterPayloadDupUrl "opencode" =
      "OpenCode is an AI coding agent." ∧
    specOpenRouterCitedResult openRouterPayloadDupUrl "opencode" =
      "OpenCode[1] is an AI coding agent.[1]\n\nSources:\n[1] https://a.example" ∧
    openRouterFormatPayload openRouterPayloadDupUrl "opencode" ≠
      specOpenRouterCitedResult openRouterPayloadDupUrl "opencode" := by
  refine ⟨by decide, by decide, by decide⟩

/-- Claim C3 (amended): the OpenRouter result post-processing performs no
annotation-based citation work at all: erasing every `url_citation` annotation
from the payload leaves the result unchanged, and whenever the extracted
output text is present and not all-whitespace the result is that text
verbatim. -/
theorem claim_C3 : ∀ (payload : OpenRouterResponsesBody) (q : String),
    openRouterFormatPayload (stripAnnotations payload) q =
      openRouterFormatPayload payload q ∧
    ∀ t, extractOutputText payload = some t → ¬(jsTrim t = "") →
      openRouterFormatPayload payload q = t := by
  intro payload q
  constructor
  · have hout : extractOutputText (stripAnnotations payload) =
        extractOutputText payload := by
      show (match (stripAnnotations payload).output_text with
        | some direct =>
          if jsTrim direct = "" then
            extractFromOutput (stripAnnotations payload).output
          else some direct
        | none => extractFromOutput (stripAnnotations payload).output) = _
      have h1 : (stripAnnotations payload).output_text = payload.output_text := rfl
      have h2 : (stripAnnotations payload).output =
          payload.output.map (List.map stripMessage) := rfl
      rw [h1, h2, extractFromOutput_stripAnnotations]
      rfl
    show (match extractOutputText (stripAnnotations payload) with
      | none => _
      | some outputText => _) = _
    rw [hout]
    rfl
  · intro t ht htrim
    show (match extractOutputText payload with
      | none =>
        "Web search completed for \"" ++ q ++ "\", but no results were returned."
      | some outputText =>
        if jsTrim outputText = "" then
          "Web search completed for \"" ++ q ++ "\", but no results were returned."
        else outputText) = t
    rw [ht]
    exact if_neg htrim

/-- Claim C3 witness: the amended theorem applied to the duplicate-URL payload
and its extracted text. -/
theorem claim_C3_witness :
    openRouterFormatPayload (stripAnnotations openRouterPayloadDupUrl) "opencode" =
      openRouterFormatPayload openRouterPayloadDupUrl "opencode" ∧
    openRouterFormatPayload openRouterPayloadDupUrl "opencode" =
      "OpenCode is an AI coding agent." :=
  ⟨(claim_C3 openRouterPayloadDupUrl "opencode").1,
    (claim_C3 openRouterPayloadDupUrl "opencode").2 "OpenCode is an AI coding agent."
      (by decide) (by decide)⟩

/-- Claim C4: the aggregator emits exactly one insertion per support with a
defined `segment.endIndex` and non-empty `groundingChunkIndices` (as a
permutation, since the emitted list is then sorted by descending position);
the insertion sits at exactly `segment.endIndex` and its marker concatenates
`"[" ++ toString (idx + 1) ++ "]"` over the unique chunk indices sorted
ascending; and every support lacking `segment`, lacking `endIndex`, or with an
empty index list is skipped. -/
theorem claim_C4 :
    (∀ (md : GeminiMetadata) (supports : List GeminiSupport),
      md.groundingSupports = some supports →
      (buildCitationInsertions (some md)).Perm (supports.filterMap supportInsertion)) ∧
    (∀ (sup : GeminiSupport) (seg : GeminiSupportSegment) (e : Nat) (idxs : List Nat),
      sup.segment = some seg → seg.endIndex = some e →
      sup.groundingChunkIndices = some idxs → idxs ≠ [] →
      ∃ refs : List Nat,
        supportInsertion sup =
          some { index := e,
                 marker := String.join (refs.map
                   (fun idx => "[" ++ toString (idx + 1) ++ "]")) } ∧
        refs.Pairwise (· < ·) ∧ (∀ x, x ∈ refs ↔ x ∈ idxs)) ∧
    (∀ sup : GeminiSupport,
      (sup.segment = none ∨
        (∃ seg, sup.segment = some seg ∧ seg.endIndex = none) ∨
        sup.groundingChunkIndices = none ∨
        sup.groundingChunkIndices = some []) →
      supportInsertion sup = none) := by
  refine ⟨?_, ?_, ?_⟩
  · intro md supports hsup
    show (match (some md).bind GeminiMetadata.groundingSupports with
      | none => ([] : List CitationInsertion)
      | some supports =>
        if supports.isEmpty then []
        else
          List.insertionSort (fun a b => b.index ≤ a.index)
            (supports.filterMap supportInsertion)).Perm
      (supports.filterMap supportInsertion)
    rw [show (some md).bind GeminiMetadata.groundingSupports = some supports from hsup]
    cases supports with
    | nil => simp
    | cons s rest =>
      simp only [List.isEmpty_cons, Bool.false_eq_true, if_false]
      exact List.perm_insertionSort _ _
  · intro sup seg e idxs hseg hend hidx hne
    refine ⟨List.insertionSort (fun a b => a ≤ b) idxs.dedup, ?_, ?_, ?_⟩
    · show ((match sup.segment with
        | none => none
        | some segment =>
          match segment.endIndex with
          | none => none
          | some endIndex =>
            match sup.groundingChunkIndices with
            | none => none
            | some indices =>
              if indices.isEmpty then none
              else
                some { index := endIndex,
                       marker := String.join
                         ((List.insertionSort (fun a b => a ≤ b) indices.dedup).map
                           (fun idx => "[" ++ toString (idx + 1) ++ "]")) }) :
        Option CitationInsertion) = _
      simp only [hseg, hend, hidx]
      rw [if_neg (by simpa [List.isEmpty_iff] using hne)]
    · have hsorted : List.Sorted (· ≤ ·)
          (List.insertionSort (fun a b => a ≤ b) idxs.dedup) :=
        List.sorted_insertionSort _ _
      have hnodup : (List.insertionSort (fun a b => a ≤ b) idxs.dedup).Nodup :=
        (List.perm_insertionSort _ _).nodup_iff.mpr (List.nodup_dedup idxs)
      exact (hsorted.and hnodup).imp (fun h => lt_of_le_of_ne h.1 h.2)
    · intro x
      rw [List.mem_insertionSort, List.mem_dedup]
  · intro sup h
    rcases h with h | ⟨seg, hseg, hend⟩ | h | h
    · simp [supportInsertion, h]
    · simp [supportInsertion, hseg, hend]
    · cases hseg : sup.segment with
      | none => simp [supportInsertion, hseg]
      | some seg =>
        cases hend : seg.endIndex with
        | none => simp [supportInsertion, hseg, hend]
        | some e => simp [supportInsertion, hseg, hend, h]
    · cases hseg : sup.segment with
      | none => simp [supportInsertion, hseg]
      | some seg =>
        cases hend : seg.endIndex with
        | none => simp [supportInsertion, hseg, hend]
        | some e => simp [supportInsertion, hseg, hend, h]

/-- Claim C4 witness: the three components applied at concrete inputs — the
basic grounded metadata, a support with duplicate indices `[1, 0, 1]`, and a
support lacking its segment. -/
theorem claim_C4_witness :
    (buildCitationInsertions (some
        { groundingChunks := none,
          groundingSupports := some [
            { segment := some { startIndex := none, endIndex := some 7 },
              groundingChunkIndices := some [2] }] })).Perm
      (([ { segment := some { startIndex := none, endIndex := some 7 },
            groundingChunkIndices := some [2] } ] : List GeminiSupport).filterMap
        supportInsertion) ∧
    (∃ refs : List Nat,
      supportInsertion
          { segment := some { startIndex := none, endIndex := some 14 },
            groundingChunkIndices := some [1, 0, 1] } =
        some { index := 14,
               marker := String.join (refs.map
                 (fun idx => "[" ++ toString (idx + 1) ++ "]")) } ∧
      refs.Pairwise (· < ·) ∧ (∀ x, x ∈ refs ↔ x ∈ [1, 0, 1])) ∧
    supportInsertion { segment := none, groundingChunkIndices := some [0] } = none :=
  ⟨claim_C4.1 _ _ rfl,
    claim_C4.2.1 _ _ 14 [1, 0, 1] rfl rfl rfl (by decide),
    claim_C4.2.2 _ (Or.inl rfl)⟩

/-- Claim C5: whenever the extracted answer text is absent (which covers
candidates whose parts are missing, empty, all-"thought", or all-empty) or
all-whitespace, both formatter variants return exactly the fixed fallback
message, with no sources and no error set, regardless of any grounding
metadata present. -/
theorem claim_C5 : ∀ (response : GeminiGenerateContentResponse) (query : String),
    (extractResponseText response = none ∨
      ∃ t, extractResponseText response = some t ∧ jsTrim t = "") →
    formatWebSearchResponse response query =
      "No search results or information found for query: \"" ++ query ++ "\"" ∧
    Plugin.formatWebSearchResponse response query =
      { llmContent := "No search results or information found for query: \"" ++ query ++ "\"",
        returnDisplay := "No information found.", sources := none, error := none } := by
  intro response query h
  rcases h with h | ⟨t, ht, htrim⟩
  · constructor
    · show (match extractResponseText response with
        | none => "No search results or information found for query: \"" ++ query ++ "\""
        | some responseText => _) = _
      rw [h]
    · show (match extractResponseText response with
        | none =>
          ({ llmContent := "No search results or information found for query: \"" ++ query ++ "\"",
             returnDisplay := "No information found.", sources := none,
             error := none } : Plugin.GeminiSearchResult)
        | some responseText => _) = _
      rw [h]
  · constructor
    · show (match extractResponseText response with
        | none => "No search results or information found for query: \"" ++ query ++ "\""
        | some responseText => _) = _
      rw [ht]
      show (if jsTrim t = "" then
          "No search results or information found for query: \"" ++ query ++ "\""
        else _) = _
      rw [if_pos htrim]
    · show (match extractResponseText response with
        | none =>
          ({ llmContent := "No search results or information found for query: \"" ++ query ++ "\"",
             returnDisplay := "No information found.", sources := none,
             error := none } : Plugin.GeminiSearchResult)
        | some responseText => _) = _
      rw [ht]
      show (if jsTrim t = "" then
          ({ llmContent := "No search results or information found for query: \"" ++ query ++ "\"",
             returnDisplay := "No information found.", sources := none,
             error := none } : Plugin.GeminiSearchResult)
        else _) = _
      rw [if_pos htrim]

/-- A response whose candidate has one "thought" part and one whitespace-only
text part, with grounding metadata present. -/
def geminiResponseThought : GeminiGenerateContentResponse :=
  { candidates := some [
      { content := some { role := some "model",
                          parts := some [
                            { text := some "internal reasoning", thought := true },
                            { text := some "   ", thought := false } ] },
        groundingMetadata := some {
          groundingChunks := some [
            { web := some { title := some "Example Site",
                            uri := some "https://example.com" } } ],
          groundingSupports := some [
            { segment := some { startIndex := some 0, endIndex := some 2 },
              groundingChunkIndices := some [0] } ] } } ] }

/-- Claim C5 witness: the theorem applied to the thought-and-whitespace
response, whose extracted text is the whitespace-only `"   "`. -/
theorem claim_C5_witness :
    formatWebSearchResponse geminiResponseThought "gamma" =
      "No search results or information found for query: \"" ++ "gamma" ++ "\"" ∧
    Plugin.formatWebSearchResponse geminiResponseThought "gamma" =
      { llmContent := "No search results or information found for query: \"" ++ "gamma" ++ "\"",
        returnDisplay := "No information found.", sources := none, error := none } :=
  claim_C5 geminiResponseThought "gamma" (Or.inr ⟨"   ", by decide, by decide⟩)

/-- Claim C6: when `groundingChunks` is absent or empty (including when the
whole metadata is absent), the google.ts formatter returns the extracted body
text completely unmodified — no markers, no `Sources:` block — even when
`groundingSupports` is non-empty. -/
theorem claim_C6 : ∀ (response : GeminiGenerateContentResponse) (query t : String),
    extractResponseText response = some t → ¬(jsTrim t = "") →
    (extractGroundingMetadata response = none ∨
      ∃ md, extractGroundingMetadata response = some md ∧
        (md.groundingChunks = none ∨ md.groundingChunks = some [])) →
    formatWebSearchResponse response query = t := by
  intro response query t ht htrim hmd
  show (match extractResponseText response with
    | none => "No search results or information found for query: \"" ++ query ++ "\""
    | some responseText =>
      if jsTrim responseText = "" then
        "No search results or information found for query: \"" ++ query ++ "\""
      else
        let metadata := extractGroundingMetadata response
        let sources := metadata.bind GeminiMetadata.groundingChunks
        let hasSources : Bool :=
          match sources with
          | some chunks => !chunks.isEmpty
          | none => false
        let afterInsert :=
          if hasSources then
            let insertions := buildCitationInsertions metadata
            if insertions.isEmpty then responseText
            else insertMarkersByUtf8Index responseText insertions
          else responseText
        if hasSources then
          afterInsert ++ "\n\nSources:\n" ++
            String.intercalate "\n"
              ((sources.getD []).enum.map (fun p => sourceLine p.1 p.2))
        else afterInsert) = t
  simp only [ht]
  rw [if_neg htrim]
  rcases hmd with h | ⟨md, h, hc⟩
  · simp [h]
  · rcases hc with hc | hc
    · simp [h, hc]
    · simp [h, hc]

/-- A response with a non-empty support list but an empty chunk list. -/
def geminiResponseNoChunks : GeminiGenerateContentResponse :=
  { candidates := some [
      { content := some { role := some "model",
                          parts := some [{ text := some "Body text.",
                                           thought := false }] },
        groundingMetadata := some {
          groundingChunks := some [],
          groundingSupports := some [
            { segment := some { startIndex := some 0, endIndex := some 4 },
              groundingChunkIndices := some [0] } ] } } ] }

/-- Claim C6 witness: the theorem applied to a response with empty
`groundingChunks` and a non-empty `groundingSupports`. -/
theorem claim_C6_witness :
    formatWebSearchResponse geminiResponseNoChunks "delta" = "Body text." :=
  claim_C6 geminiResponseNoChunks "delta" "Body text." (by decide) (by decide)
    (Or.inr ⟨{ groundingChunks := some [],
               groundingSupports := some [
                 { segment := some { startIndex := some 0, endIndex := some 4 },
                   groundingChunkIndices := some [0] } ] },
      by decide, Or.inr rfl⟩)

/-- Claim C7: the formatting core is total by construction over the fully
optional raw-response structure (witnessed by the all-missing response
evaluating to the fallback), and the splicer's clamping is sound: replacing
each insertion index by its clamped value — never exceeding the byte length
nor the previous (lower) insertion's position — produces the same assembled
buffer, so out-of-range or overlapping spans never cause an out-of-range
slice. -/
theorem claim_C7 : ∀ (bytes : List Nat) (ins : List CitationInsertion),
    spliceBytes bytes (clampIndices bytes.length ins) = spliceBytes bytes ins ∧
    List.Chain' (fun a b => b.index ≤ a.index) (clampIndices bytes.length ins) ∧
    (∀ c ∈ clampIndices bytes.length ins, c.index ≤ bytes.length) ∧
    (∀ query : String,
      formatWebSearchResponse { candidates := none } query =
        "No search results or information found for query: \"" ++ query ++ "\"") := by
  intro bytes ins
  refine ⟨spliceLoop_clampIndices bytes ins bytes.length,
    clampIndices_chain ins bytes.length,
    clampIndices_le ins bytes.length,
    fun query => rfl⟩

/-- Claim C7 witness: the clamping components applied at a concrete buffer of
two bytes with overlapping, out-of-range insertions. -/
theorem claim_C7_witness :
    spliceBytes [104, 105]
        (clampIndices 2 [{ index := 9, marker := "[1]" }, { index := 7, marker := "[2]" }]) =
      spliceBytes [104, 105]
        [{ index := 9, marker := "[1]" }, { index := 7, marker := "[2]" }] ∧
    ({ index := 2, marker := "[2]" } : CitationInsertion).index ≤ 2 ∧
    formatWebSearchResponse { candidates := none } "epsilon" =
      "No search results or information found for query: \"" ++ "epsilon" ++ "\"" :=
  ⟨(claim_C7 [104, 105] [{ index := 9, marker := "[1]" }, { index := 7, marker := "[2]" }]).1,
    (claim_C7 [104, 105] [{ index := 9, marker := "[1]" }, { index := 7, marker := "[2]" }]).2.2.1
      { index := 2, marker := "[2]" } (by decide),
    (claim_C7 [] []).2.2.2 "epsilon"⟩

/-- Claim C10 counterexample: at the decoded-string level the byte-length
equation fails when an insertion index falls inside a multi-byte character:
splicing `"[1]"` at byte offset 1 of `"é"` (2 UTF-8 bytes) splits the
character, the decoder substitutes two replacement characters, and the final
string re-encodes to 9 bytes, not 2 + 3. -/
theorem claim_C10_counterexample :
    insertMarkersByUtf8Index "é" [{ index := 1, marker := "[1]" }] = "�[1]�" ∧
    (utf8Bytes (insertMarkersByUtf8Index "é" [{ index := 1, marker := "[1]" }])).length ≠
      (utf8Bytes "é").length + (utf8Bytes "[1]").length := by
  refine ⟨by decide, by decide⟩

/-- Claim C10 (amended): the text-preservation invariant holds of the byte
buffer the splicer assembles (before UTF-8 decoding): for every text and every
insertion list, the assembled buffer's length is the text's byte length plus
the sum of the markers' byte lengths, and the text's bytes appear in order
exactly once, partitioned into `n + 1` contiguous fragments with the `n`
encoded markers between them; with an empty insertion list the output string
is the text unchanged. -/
theorem claim_C10 : ∀ (text : String) (ins : List CitationInsertion),
    (∃ frags : List (List Nat),
      frags.length = ins.length + 1 ∧
      frags.flatten = utf8Bytes text ∧
      spliceBytes (utf8Bytes text) ins =
        interleaveJoin frags ((ins.map (fun i => utf8Bytes i.marker)).reverse)) ∧
    (spliceBytes (utf8Bytes text) ins).length =
      (utf8Bytes text).length + (ins.map (fun i => (utf8Bytes i.marker).length)).sum ∧
    insertMarkersByUtf8Index text [] = text := by
  intro text ins
  obtain ⟨frags, hlen, hflat, heq⟩ :=
    spliceLoop_decomp (utf8Bytes text) ins (utf8Bytes text).length
  rw [List.take_length] at hflat
  refine ⟨⟨frags, hlen, hflat, heq⟩, ?_, rfl⟩
  rw [show spliceBytes (utf8Bytes text) ins =
      spliceLoop (utf8Bytes text) ins (utf8Bytes text).length from rfl, heq,
    interleaveJoin_length _ _ (by simpa using hlen), hflat]
  congr 1
  rw [List.map_reverse, List.sum_reverse, List.map_map]
  rfl

/-- A response whose single support references chunk index 5 while only one
chunk exists: the aggregator performs no range check, so the marker `[6]` is
spliced in although the sources list has a single entry. -/
def geminiResponseOutOfRange : GeminiGenerateContentResponse :=
  { candidates := some [
      { content := some { role := some "model",
                          parts := some [{ text := some "Hello", thought := false }] },
        groundingMetadata := some {
          groundingChunks := some [
            { web := some { title := some "T", uri := some "U" } } ],
          groundingSupports := some [
            { segment := some { startIndex := some 0, endIndex := some 4 },
              groundingChunkIndices := some [5] } ] } } ] }

/-- Claim C8 counterexample: the `geminisearch` formatter produces a result
whose `llmContent` contains the marker `[6]` although `sources` holds a single
entry, because the aggregator never checks chunk indices against the source
list; so the marker-range part of the invariant fails as stated. -/
theorem claim_C8_counterexample :
    (Plugin.formatWebSearchResponse geminiResponseOutOfRange "q").sources =
      some [{ web := some { title := some "T", uri := some "U" } }] ∧
    (Plugin.formatWebSearchResponse geminiResponseOutOfRange "q").llmContent =
      "Web search results for \"q\":\n\nHell[6]o\n\nSources:\n[1] T (U)" := by
  refine ⟨by decide, by decide⟩

/-- Claim C8 (amended): invariants of the `geminisearch` results: a `sources`
field, when present, is non-empty; an error result's `llmContent` contains the
`error.message` verbatim; and — provided every support's chunk indices are in
range of the source list, as they are for well-formed provider metadata —
every emitted citation marker is a concatenation of references `[n]` with
`1 ≤ n ≤ sources.length`. -/
theorem claim_C8 :
    (∀ (response : GeminiGenerateContentResponse) (query : String)
      (ss : List GeminiChunk),
      (Plugin.formatWebSearchResponse response query).sources = some ss → ss ≠ []) ∧
    (∀ (message code : String) (details : Option String)
      (e : Plugin.WebSearchError),
      (Plugin.buildErrorResult message code details).error = some e →
      ∃ pre post,
        (Plugin.buildErrorResult message code details).llmContent =
          pre ++ e.message ++ post) ∧
    (∀ (md : GeminiMetadata) (chunks : List GeminiChunk),
      md.groundingChunks = some chunks →
      (∀ sup ∈ md.groundingSupports.getD [],
        ∀ i ∈ sup.groundingChunkIndices.getD [], i < chunks.length) →
      ∀ ins ∈ buildCitationInsertions (some md),
        ∃ refs : List Nat,
          ins.marker = String.join (refs.map (fun n => "[" ++ toString n ++ "]")) ∧
          ∀ n ∈ refs, 1 ≤ n ∧ n ≤ chunks.length) := by
  refine ⟨?_, ?_, ?_⟩
  · intro response query ss h
    simp only [Plugin.formatWebSearchResponse] at h
    cases hx : extractResponseText response with
    | none =>
      simp only [hx] at h
      exact Option.noConfusion h
    | some t =>
      simp only [hx] at h
      by_cases htrim : jsTrim t = ""
      · rw [if_pos htrim] at h
        simp at h
      · rw [if_neg htrim] at h
        simp only at h
        cases hs : (extractGroundingMetadata response).bind
            GeminiMetadata.groundingChunks with
        | none => simp only [hs] at h; simp at h
        | some chunks =>
          cases chunks with
          | nil => simp only [hs] at h; simp at h
          | cons c cs =>
            simp only [hs, List.isEmpty_cons, Bool.not_false, if_true] at h
            intro hss
            rw [← Option.some_inj.mp h] at hss
            exact List.cons_ne_nil c cs hss
  · intro message code details e h
    cases details with
    | none =>
      refine ⟨"Error: ", "", ?_⟩
      have he : e = { message := message, type := some code } := by
        simpa [Plugin.buildErrorResult] using h.symm
      subst he
      show "Error: " ++ message = "Error: " ++ message ++ ""
      rw [String.append_empty]
    | some d =>
      refine ⟨"Error: " ++ message ++ "\n\nDetails: ", "", ?_⟩
      have he : e = { message := d, type := some code } := by
        simpa [Plugin.buildErrorResult] using h.symm
      subst he
      show "Error: " ++ message ++ "\n\nDetails: " ++ d =
        "Error: " ++ message ++ "\n\nDetails: " ++ d ++ ""
      rw [String.append_empty]
  · intro md chunks hchunks hvalid ins hins
    cases hsup : md.groundingSupports with
    | none =>
      exfalso
      simp only [buildCitationInsertions, Option.some_bind, hsup] at hins
      simp at hins
    | some supports =>
      have hins' : ins ∈ supports.filterMap supportInsertion := by
        simp only [buildCitationInsertions, Option.some_bind, hsup] at hins
        by_cases hemp : supports.isEmpty
        · rw [if_pos hemp] at hins; simp at hins
        · rw [if_neg hemp] at hins
          exact List.mem_insertionSort _ |>.mp hins
      obtain ⟨sup, hmem, hsi⟩ := List.mem_filterMap.mp hins'
      cases hseg : sup.segment with
      | none => simp [supportInsertion, hseg] at hsi
      | some seg =>
        cases hend : seg.endIndex with
        | none => simp [supportInsertion, hseg, hend] at hsi
        | some e =>
          cases hidx : sup.groundingChunkIndices with
          | none => simp [supportInsertion, hseg, hend, hidx] at hsi
          | some idxs =>
            by_cases hemp : idxs.isEmpty
            · simp [supportInsertion, hseg, hend, hidx, hemp] at hsi
            · have hmark : ins =
                  { index := e,
                    marker := String.join
                      ((List.insertionSort (fun a b => a ≤ b) idxs.dedup).map
                        (fun idx => "[" ++ toString (idx + 1) ++ "]")) } := by
                simp only [supportInsertion, hseg, hend, hidx, if_neg hemp] at hsi
                exact (Option.some_inj.mp hsi).symm
              refine ⟨(List.insertionSort (fun a b => a ≤ b) idxs.dedup).map
                (fun idx => idx + 1), ?_, ?_⟩
              · rw [hmark, List.map_map]
                rfl
              · intro n hn
                obtain ⟨idx, hidxmem, hidxeq⟩ := List.mem_map.mp hn
                have hidxin : idx ∈ idxs :=
                  List.mem_dedup.mp ((List.mem_insertionSort _).mp hidxmem)
                have hlt : idx < chunks.length := by
                  have := hvalid sup (by rw [hsup]; exact hmem) idx
                  rw [hidx] at this
                  exact this hidxin
                omega

/-- The grounding metadata of the basic end-to-end fixture. -/
def geminiMetadataBasic : GeminiMetadata :=
  { groundingChunks := some [
      { web := some { title := some "Example Site",
                      uri := some "https://example.com" } },
      { web := some { title := some "Google",
                      uri := some "https://google.com" } } ],
    groundingSupports := some [
      { segment := some { startIndex := some 5, endIndex := some 14 },
        groundingChunkIndices := some [0] },
      { segment := some { startIndex := some 15, endIndex := some 24 },
        groundingChunkIndices := some [0, 1] } ] }

/-- Claim C8 witness: the three amended invariants applied at concrete inputs:
the basic grounded response, a concrete error result, and the basic metadata
(whose chunk indices are all in range). -/
theorem claim_C8_witness :
    ([ { web := some { title := some "Example Site",
                       uri := some "https://example.com" } },
       { web := some { title := some "Google",
                       uri := some "https://google.com" } } ] : List GeminiChunk) ≠ [] ∧
    (∃ pre post,
      (Plugin.buildErrorResult "broken" "SOME_CODE" (some "details text")).llmContent =
        pre ++ ({ message := "details text", type := some "SOME_CODE" } :
          Plugin.WebSearchError).message ++ post) ∧
    (∃ refs : List Nat,
      ({ index := 24, marker := "[1][2]" } : CitationInsertion).marker =
        String.join (refs.map (fun n => "[" ++ toString n ++ "]")) ∧
      ∀ n ∈ refs, 1 ≤ n ∧ n ≤
        ([ { web := some { title := some "Example Site",
                           uri := some "https://example.com" } },
           { web := some { title := some "Google",
                           uri := some "https://google.com" } } ] : List GeminiChunk).length) :=
  ⟨claim_C8.1 geminiResponseBasic "grounding query" _ (by decide),
    claim_C8.2.1 "broken" "SOME_CODE" (some "details text") _ (by decide),
    claim_C8.2.2 geminiMetadataBasic _ rfl (by decide)
      { index := 24, marker := "[1][2]" } (by decide)⟩

/-- Claim C9: for every query that is absent, empty, or pure whitespace, both
tool entry points stop with a validation error before any network request is
constructed: `geminisearch.execute` returns the `INVALID_QUERY` error result,
and `websearch_cited.execute` throws (the empty-query message, or the
unknown-argument message when extra keys are also present) — never reaching a
provider dispatch. -/
theorem claim_C9 : ∀ (query storedKey envKey : Option String)
    (argKeys : List String) (configError : Option String)
    (selected : Option (String × String)),
    (query = none ∨ ∃ q, query = some q ∧ jsTrim q = "") →
    Plugin.geminisearchExecute query storedKey envKey =
      .reply (Plugin.buildErrorResult "The 'query' parameter cannot be empty."
        "INVALID_QUERY" none) ∧
    ∃ msg, websearchCitedExecute argKeys query configError selected = .thrown msg := by
  intro query storedKey envKey argKeys configError selected h
  constructor
  · show (match query.map jsTrim with
      | none =>
        Plugin.GeminisearchStep.reply
          (Plugin.buildErrorResult "The 'query' parameter cannot be empty."
            "INVALID_QUERY" none)
      | some q =>
        if q = "" then
          Plugin.GeminisearchStep.reply
            (Plugin.buildErrorResult "The 'query' parameter cannot be empty."
              "INVALID_QUERY" none)
        else
          match Plugin.resolveGeminiApiKey storedKey envKey with
          | none =>
            Plugin.GeminisearchStep.reply
              (Plugin.buildErrorResult
                "Gemini web search is not configured. Please log in to the Google provider via `opencode auth login` or set GEMINI_API_KEY."
                "MISSING_GEMINI_API_KEY" none)
          | some _ => Plugin.GeminisearchStep.callGemini "gemini-2.5-flash" q) = _
    rcases h with h | ⟨q, hq, htrim⟩
    · rw [h]
      rfl
    · rw [hq]
      show (if jsTrim q = "" then _ else _) = _
      rw [if_pos htrim]
  · show ∃ msg, (if !(argKeys.filter (fun key => !(key = "query"))).isEmpty then
        WebsearchCitedStep.thrown
          ("Unknown argument(s): " ++
            String.intercalate ", " (argKeys.filter (fun key => !(key = "query"))) ++
            ", only 'query' supported.")
      else
        match query.map jsTrim with
        | none => WebsearchCitedStep.thrown "The 'query' parameter cannot be empty."
        | some q =>
          if q = "" then
            WebsearchCitedStep.thrown "The 'query' parameter cannot be empty."
          else
            match configError with
            | some e => WebsearchCitedStep.thrown e
            | none =>
              match selected with
              | none =>
                WebsearchCitedStep.thrown "Missing web search model configuration."
              | some (providerID, model) =>
                WebsearchCitedStep.dispatch providerID model q) = .thrown msg
    by_cases hk : (argKeys.filter (fun key => !(key = "query"))).isEmpty
    · rw [if_neg (by simp [hk])]
      rcases h with h | ⟨q, hq, htrim⟩
      · rw [h]
        exact ⟨_, rfl⟩
      · rw [hq]
        refine ⟨"The 'query' parameter cannot be empty.", ?_⟩
        show (if jsTrim q = "" then _ else _) = _
        rw [if_pos htrim]
    · rw [if_pos (by simp [hk])]
      exact ⟨_, rfl⟩

/-- Claim C9 witness: a pure-whitespace query with a configured key, a valid
argument list, and a selected provider still stops at validation in both entry
points. -/
theorem claim_C9_witness :
    Plugin.geminisearchExecute (some "   ") (some "key") none =
      .reply (Plugin.buildErrorResult "The 'query' parameter cannot be empty."
        "INVALID_QUERY" none) ∧
    ∃ msg, websearchCitedExecute ["query"] (some "   ") none
        (some ("google", "gemini-2.5-flash")) = .thrown msg :=
  claim_C9 (some "   ") (some "key") none ["query"] none
    (some ("google", "gemini-2.5-flash")) (Or.inr ⟨"   ", rfl, by decide⟩)
